import Mathlib

/-!
Verification of the tfmodellib specification against a shallow embedding of
the code in src/tfmodellib/tfmodel.py and src/tfmodellib/vae.py.

Conventions of the embedding:
* Python exceptions are modelled with `Except PyError`; a function whose body
  is wrapped in a blanket try/except that prints the error returns the
  printed error as an `Option PyError` component instead of propagating it.
* Python dicts of config values / summaries are modelled as association lists
  (`List (String × _)`) with dict-update semantics made explicit.
* numpy floats appearing only as opaque stored values are modelled by `ℚ`;
  the VAE loss arithmetic (vae.py) is modelled over `ℝ`.
-/

namespace TFModelLib

/-- Python exceptions raised by the embedded code paths. -/
inductive PyError where
  | nameError (n : String)
  | notImplementedError (msg : String)
  | indexError
  | typeError
  | attributeError (n : String)
deriving DecidableEq

/-- Values of a `TFModelConfig` dict: the JSON-representable values plus
Python callables.  A callable is identified by its `__name__` and
`__module__`, which is exactly the information `TFModelConfigEncoder`
serialises and `TFModelConfig.load` uses to re-resolve it via
`importlib.import_module(val[2]).__dict__[val[1]]`. -/
inductive Val where
  | jnull
  | jbool (b : Bool)
  | jnum (n : Int)
  | jstr (s : String)
  | jlist (xs : List Val)
  | callable (name : String) (mod : String)

/-- The marker string `TFModelConfigEncoder.CALLABLE_TYPE` (tfmodel.py line 116). -/
def CALLABLE_TYPE : String := "TFMODELLIB_TFMODEL_JSONENCODER__CALLABLE_TYPE"

mutual

/-- The effect of `json.dump` with `cls=TFModelConfigEncoder` on one value
(tfmodel.py lines 114-121): `json.dump` serialises containers recursively and
calls `TFModelConfigEncoder.default` on every non-JSON object it meets, so a
callable anywhere in the value becomes the 3-element marker list
`[CALLABLE_TYPE, name, module]`. -/
def encodeVal : Val → Val
  | .callable n m => .jlist [.jstr CALLABLE_TYPE, .jstr n, .jstr m]
  | .jlist xs => .jlist (encodeValList xs)
  | .jnull => .jnull
  | .jbool b => .jbool b
  | .jnum n => .jnum n
  | .jstr s => .jstr s

def encodeValList : List Val → List Val
  | [] => []
  | x :: xs => encodeVal x :: encodeValList xs

end

mutual

/-- Holds (`true`) iff the value contains no callable anywhere (it is plain JSON). -/
def no_callable : Val → Bool
  | .callable _ _ => false
  | .jlist xs => no_callable_list xs
  | _ => true

def no_callable_list : List Val → Bool
  | [] => true
  | x :: xs => no_callable x && no_callable_list xs

end

/-- Holds (`true`) iff the value is a list whose first element is the callable marker
string, i.e. the shape `TFModelConfig.load` treats as an encoded callable
(`isinstance(val, list) and len(val) > 0 and val[0] == CALLABLE_TYPE`). -/
def is_marker_list : Val → Bool
  | .jlist (.jstr s :: _) => s == CALLABLE_TYPE
  | _ => false

/-- Values that survive the save/load round-trip untouched: a top-level
callable (re-resolved by `load`), or a plain JSON value that contains no
callable and does not itself have the marker-list shape that `load` would
mistake for an encoded callable.  A callable nested inside a container is
encoded by `json.dump` (which recurses) but never decoded by `load` (which
inspects only top-level values), so it is excluded. -/
def value_roundtrips : Val → Bool
  | .callable _ _ => true
  | v => no_callable v && !(is_marker_list v)

/-- A config dict: insertion-ordered mapping from key to value. -/
abbrev TFModelConfig := List (String × Val)

/-- Embedding of `TFModelConfig.save` (tfmodel.py lines 152-157): `json.dump(self, fp,
cls=TFModelConfigEncoder)` — every value is serialised through the encoder.
(The surrounding try/except only concerns file I/O, which the embedding does
not model; encoding itself is total on `Val`.) -/
def TFModelConfig.save (self : TFModelConfig) : TFModelConfig :=
  self.map (fun kv => (kv.1, encodeVal kv.2))

/-- The message of the `NotImplementedError` raised by `TFModelConfig.load`
on Python < 3.4 (tfmodel.py line 169). -/
def NIE_MSG : String :=
  "Restoring function handles from checkpoints only implemented for Python versions 3.4 and newer."

/-- The body of the decoding loop of `TFModelConfig.load` (tfmodel.py lines
163-169) for a single value `val`:
if `isinstance(val, list) and len(val) > 0 and val[0] == CALLABLE_TYPE`, then
on Python >= 3.4 replace it with
`importlib.import_module(val[2]).__dict__[val[1]]` (modelled as the callable
with that name and module), else `raise NotImplementedError(...)`.
A marker list lacking string name/module entries would make the dynamic
module resolution fail; modelled as a `typeError`. -/
def decode_value (verGe34 : Bool) (v : Val) : Except PyError Val :=
  match v with
  | .jlist (.jstr s :: rest) =>
    if s == CALLABLE_TYPE then
      if verGe34 then
        match rest with
        | [.jstr name, .jstr mod] => .ok (.callable name mod)
        | _ => .error .typeError
      else
        .error (.notImplementedError NIE_MSG)
    else .ok v
  | _ => .ok v

/-- The decoding loop of `TFModelConfig.load` over the whole parsed JSON
dict: decode values in order, stopping at the first raised exception. -/
def load_decode (verGe34 : Bool) : TFModelConfig → Except PyError TFModelConfig
  | [] => .ok []
  | kv :: t => do
    let v ← decode_value verGe34 kv.2
    let rest ← load_decode verGe34 t
    pure ((kv.1, v) :: rest)

/-- Python `dict.update(**conf)`: every key of `conf` is (re)bound to its
value in `conf`; keys absent from `conf` keep their binding in `self`. -/
def TFModelConfig.update (self conf : TFModelConfig) : TFModelConfig :=
  self.filter (fun kv => (conf.lookup kv.1).isNone) ++ conf

/-- Embedding of `TFModelConfig.load` (tfmodel.py lines 159-172).  The whole body — JSON
parse, decoding loop, `self.update(**conf)` — sits inside
`try: ... except Exception as e: print(e)`, so any exception raised inside
(including the `NotImplementedError` for callables on Python < 3.4) is caught
and printed, and the method returns normally with `self` unmodified.  The
returned pair is (resulting config, the printed-and-swallowed error if any).
`fileConf` is the already-parsed JSON content of the file. -/
def TFModelConfig.load (self : TFModelConfig) (fileConf : TFModelConfig) (verGe34 : Bool) : TFModelConfig × Option PyError :=
  match load_decode verGe34 fileConf with
  | .ok conf => (TFModelConfig.update self conf, none)
  | .error e => (self, some e)

/-- Inner loop of `chunklist` (tfmodel.py lines 60-74), made structural with
a fuel argument: Python iterates `i in range(0, len(values), length)` and at
each step yields the slice `values[i:i+length]` if it is full, otherwise
stops.  Each executed iteration consumes `length ≥ 1` elements, so
`values.length` steps of fuel always suffice; `chunklist` below instantiates
the fuel accordingly.  (For `length = 0` Python's `range` raises
`ValueError`; all claims about `chunklist` assume a positive length, and the
guard `0 < len` keeps the model total.) -/
def chunklist_go (len : Nat) : Nat → List α → List (List α)
  | 0, _ => []
  | fuel + 1, values =>
    if 0 < len ∧ len ≤ values.length then
      values.take len :: chunklist_go len fuel (values.drop len)
    else []

/-- Embedding of `chunklist(values, length)` (tfmodel.py lines 60-74): split a list into
consecutive chunks of exactly `length` elements; a trailing short chunk ends
the generator without being yielded. -/
def chunklist (values : List α) (len : Nat) : List (List α) :=
  chunklist_go len values.length values

/-- The `on_chunked` argument of `maybe_chunked`: the source distinguishes a
single callable from an iterable of callables via `iter(on_chunked)` /
`except TypeError` (tfmodel.py lines 95-109).  In the iterable case each
function's per-chunk results are concatenated (`sub_result += f(v, ...)`), so
there each function returns a list.  `γ` stands for the extra
`*args, **kwargs` forwarded to every call. -/
inductive OnChunked (α β γ : Type) where
  | single (f : List α → γ → β)
  | iterable (fs : List (List α → γ → List β))

/-- Result of `maybe_chunked`: the whole-list result, a list of per-chunk
results, or one concatenated result list per function. -/
inductive ChunkResult (β : Type) where
  | whole (b : β)
  | chunked (bs : List β)
  | multi (bss : List (List β))
deriving DecidableEq

/-- Embedding of `maybe_chunked(values, length, on_chunked, on_not_chunked, *args)`
(tfmodel.py lines 77-111): if `length is None`, call `on_not_chunked` once on
the whole list and return `(result, False)`; otherwise apply the chunked
handler(s) over `chunklist(values, length)` and return `(result, True)`. -/
def maybe_chunked (values : List α) (length : Option Nat)
    (on_chunked : OnChunked α β γ) (on_not_chunked : List α → γ → β)
    (extra : γ) : ChunkResult β × Bool :=
  match length with
  | none => (.whole (on_not_chunked values extra), false)
  | some len =>
    match on_chunked with
    | .single f => (.chunked ((chunklist values len).map (fun v => f v extra)), true)
    | .iterable fs =>
      (.multi (fs.map (fun f => ((chunklist values len).map (fun v => f v extra)).flatten)), true)

/-- Set a key in an insertion-ordered dict: overwrite in place if present,
append otherwise. -/
def dict_set (d : List (String × α)) (k : String) (v : α) : List (String × α) :=
  if d.any (fun kv => kv.1 == k) then
    d.map (fun kv => if kv.1 == k then (k, v) else kv)
  else d ++ [(k, v)]

/-- The summary-related slice of a `TFModel` instance's mutable state
(tfmodel.py).  `summaries` and `summary_values` are the dicts of the same
names (a summary value's `simple_value` float is modelled by `ℚ`, paired with
its flush mode); `summaries_ind` and `summary_fwriter` are `None`/unset
until `init_summaries` runs with a configured root, in which case both carry
the allocated run index; `warnings` collects the messages logged at warning
level; the two counters mirror the `global_step` and `batch_step`
variables. -/
structure ModelState where
  summaries : List (String × ℚ × String) := []
  summaries_ind : Option Nat := none
  summary_fwriter : Option Nat := none
  summary_values : List (String × ℚ × String) := []
  warnings : List String := []
  global_step : Nat := 0
  batch_step : Nat := 0
deriving DecidableEq

/-- Embedding of `TFModel.valid_summary_modes` (tfmodel.py lines 314-315). -/
def valid_summary_modes : List String := ["epoch", "step"]

/-- Embedding of `TFModel.add_summary` (tfmodel.py lines 317-323).  For an invalid mode
the source executes
`self.logger.log(logging.WARNING, 'Invalid summary mode ... .format(which))`,
but `which` is not a name bound in `add_summary` (its parameter is `mode`;
`which` is the parameter of `write_summary`), so evaluating the format
argument raises `NameError: name 'which' is not defined` before anything is
logged.  For a valid mode, `self.summaries[key] = (float(), mode)` with
`key = tag` when no key is given. -/
def add_summary (st : ModelState) (tag : String) (key : Option String) (mode : String) : Except PyError ModelState :=
  if mode ∈ valid_summary_modes then
    .ok { st with summaries := dict_set st.summaries (key.getD tag) ((0 : ℚ), mode) }
  else
    .error (.nameError "which")

/-- The success branch of `add_summary` (used by `init_summaries`, which only
adds summaries with the literal modes "epoch" and "step", so `add_summary`
cannot raise there). -/
def add_summary_ok (st : ModelState) (tag : String) (key : Option String) (mode : String) : ModelState :=
  { st with summaries := dict_set st.summaries (key.getD tag) ((0 : ℚ), mode) }

/-- Embedding of `TFModel.update_summary` (tfmodel.py lines 325-330): a no-op unless a
summary writer is configured; with a writer, an unknown key logs a warning
and is skipped, a known key has its `simple_value` overwritten. -/
def update_summary (st : ModelState) (key : String) (val : ℚ) : ModelState :=
  match st.summary_fwriter with
  | none => st
  | some _ =>
    if st.summary_values.any (fun kv => kv.1 == key) then
      { st with summary_values :=
          st.summary_values.map (fun kv => if kv.1 == key then (kv.1, val, kv.2.2) else kv) }
    else
      { st with warnings := st.warnings ++ ["Invalid summary key " ++ key ++ ", skipping."] }

/-- Embedding of `np.max([0] + [int(n) for n in os.listdir(summaries_root)]) + 1` and the
branch on `os.path.exists` around it (tfmodel.py lines 335-339): the run
index is `0` when the root directory does not yet exist (it is then created),
otherwise one more than the maximum of the numeric directory entries.
`none` models a root that does not exist; `some listing` models an existing
root with the (numeric) entries `listing`. -/
def summaries_run_index : Option (List Nat) → Nat
  | none => 0
  | some listing => listing.foldl max 0 + 1

/-- Embedding of `TFModel.init_summaries` (tfmodel.py lines 332-354).  `summaries_root`
is `none` when the config entry is `None`; otherwise it carries the state of
the root directory on disk (see `summaries_run_index`).  With a root, the
run index is allocated, the `FileWriter` is created in subdirectory `ind`,
the four standard summaries are registered (their modes are the valid
literals, so `add_summary` takes its success branch), and `summary_values`
is built from `summaries`.  Without a root, only `summary_fwriter = None` is
set. -/
def init_summaries (st : ModelState) (scope_name : String)
    (summaries_root : Option (Option (List Nat))) : ModelState :=
  match summaries_root with
  | some dir =>
    let ind := summaries_run_index dir
    let st1 := { st with summaries_ind := some ind, summary_fwriter := some ind }
    let st2 := add_summary_ok st1 ("(" ++ scope_name ++ ") epoch training loss") (some "epoch_train_loss") "epoch"
    let st3 := add_summary_ok st2 ("(" ++ scope_name ++ ") epoch validation loss") (some "epoch_valid_loss") "epoch"
    let st4 := add_summary_ok st3 ("(" ++ scope_name ++ ") step training loss") (some "step_train_loss") "step"
    let st5 := add_summary_ok st4 ("(" ++ scope_name ++ ") step validation loss") (some "step_valid_loss") "step"
    { st5 with summary_values := st5.summaries }
  | none => { st with summary_fwriter := none }

/-- Embedding of `TFModel.write_summary` (tfmodel.py lines 356-366): an invalid mode logs
a warning and nothing else happens; with a valid mode and a configured
writer, the summary values with matching flush mode are emitted at the
current epoch counter (mode "epoch") or mini-batch counter (mode "step").
The emitted `(value list, step)` pair is returned alongside the state. -/
def write_summary (st : ModelState) (which : String) : ModelState × Option (List (String × ℚ) × Nat) :=
  if which ∈ valid_summary_modes then
    match st.summary_fwriter with
    | some _ =>
      let value_list := (st.summary_values.filter (fun kv => kv.2.2 == which)).map (fun kv => (kv.1, kv.2.1))
      let step := if which == "epoch" then st.global_step else st.batch_step
      (st, some (value_list, step))
    | none => (st, none)
  else
    ({ st with warnings := st.warnings ++ ["Invalid summary mode " ++ which ++ ", ignoring."] }, none)

/-- Embedding of `TFModel.init_saver` (tfmodel.py lines 372-383): with a configured
checkpoints root, `self.checkpoint_dir = os.path.join(checkpoints_root,
str(self.summaries_ind))` — the run index allocated by `init_summaries` for
the summaries directory is reused for the checkpoint subdirectory.  When
`init_summaries` ran without a summaries root, the attribute
`summaries_ind` was never assigned and the access raises `AttributeError`.
Returns the resulting `checkpoint_dir` (root and run index), `none` standing
for `None`. -/
def init_saver (st : ModelState) (checkpoints_root : Option String) : Except PyError (Option (String × Nat)) :=
  match checkpoints_root with
  | some root =>
    match st.summaries_ind with
    | some ind => .ok (some (root, ind))
    | none => .error (.attributeError "summaries_ind")
  | none => .ok none

/-- The two training counters of a `TFModel`: the projection of the model's
graph variables onto `global_step` (epochs) and `batch_step` (mini-batch
steps), both created with initial value 0 in `_init_from_config`
(tfmodel.py lines 199-211). -/
structure CounterState where
  global_step : Nat
  batch_step : Nat
deriving DecidableEq

/-- Counter initialisation in `_init_from_config`: both variables start
at 0. -/
def init_counters : CounterState := { global_step := 0, batch_step := 0 }

/-- Effect of one `TFModel.train_step` call on the counters: its only
counter write is `self.sess.run(self.increment_train_step_op)`
(tfmodel.py line 515), an `assign_add(batch_step, 1)`. -/
def train_step_counters (s : CounterState) : CounterState :=
  { s with batch_step := s.batch_step + 1 }

/-- Effect of one `TFModel.train` call on the counters: `train_step` runs
once per mini-batch, then `self.sess.run(self.increment_global_step_op)`
(tfmodel.py line 457) adds 1 to `global_step`, once, whatever the number of
mini-batches was. -/
def train_counters (num_batches : Nat) (s : CounterState) : CounterState :=
  let s1 := train_step_counters^[num_batches] s
  { s1 with global_step := s1.global_step + 1 }

/-- Effect of `TFModel.restore` on the counters: `self.saver.restore` assigns
every variable in the saver's `var_list` from the checkpoint, and
`get_saver_variables` (tfmodel.py lines 368-370) returns all global
variables — which include `global_step` and `batch_step`.  So both counters
are overwritten with the checkpointed values. -/
def restore_counters (ckpt : CounterState) (_s : CounterState) : CounterState := ckpt

/-- An operation of the training loop proper (the operations the spec calls
the dedicated increment operations' owners). -/
inductive TrainOp where
  | train (num_batches : Nat)
  | trainStep

/-- Run a sequence of `train` / `train_step` calls, tracking the counters. -/
def apply_train_ops (ops : List TrainOp) (s : CounterState) : CounterState :=
  ops.foldl (fun acc op =>
    match op with
    | .train nb => train_counters nb acc
    | .trainStep => train_step_counters acc) s

/-- Embedding of `TFModel.infer` (tfmodel.py lines 526-536): batch the index list
`list(range(inputs.shape[0]))` through `infer_step` via `maybe_chunked`;
when chunked, `np.vstack` the per-chunk results if there are more than one,
otherwise take `result[0]` — which raises `IndexError` when the chunk list
is empty.  `vstack` abstracts `np.vstack`; `inputs` is the extra argument
forwarded to `infer_step`. -/
def infer (n : Nat) (batch_size : Option Nat) (infer_step : List Nat → γ → β)
    (vstack : List β → β) (inputs : γ) : Except PyError β :=
  let rw := maybe_chunked (List.range n) batch_size (.single infer_step) infer_step inputs
  if rw.2 then
    match rw.1 with
    | .chunked result =>
      if result.length > 1 then .ok (vstack result)
      else
        match result with
        | r :: _ => .ok r
        | [] => .error .indexError
    | .whole r => .ok r
    | .multi _ => .error .typeError
  else
    match rw.1 with
    | .whole r => .ok r
    | .chunked _ => .error .typeError
    | .multi _ => .error .typeError

end TFModelLib


namespace TFModelLib.VAE

noncomputable section

/-- Embedding of `latent_sigma_sq = tf.square(latent_sigma)` (vae.py line 100), for one
latent dimension of one sample, over `ℝ`. -/
def latent_sigma_sq (sigma : ℝ) : ℝ := sigma ^ 2

/-- Embedding of `latent_log_sigma_sq = tf.log(latent_sigma_sq + 1e-45)` (vae.py line
101): the logarithm is taken of `sigma² + 1e-45`, the small additive
constant guarding against `sigma = 0`. -/
def latent_log_sigma_sq (sigma : ℝ) : ℝ := Real.log (latent_sigma_sq sigma + 1e-45)

/-- The per-sample variational (KL) loss of `VAE.build_graph` (vae.py lines
187-191): `0.5 * beta * reduce_sum(-1 - log_sigma_sq + mean² + sigma_sq)`
over the latent dimensions.  `latent` lists the `(mean, sigma)` pair of each
latent dimension of the sample. -/
def variational_loss (beta : ℝ) (latent : List (ℝ × ℝ)) : ℝ :=
  0.5 * beta *
    (latent.map (fun p => -1 - latent_log_sigma_sq p.2 + p.1 ^ 2 + latent_sigma_sq p.2)).sum

/-- The combined scalar loss of `VAE.build_graph` (vae.py line 194):
`reduce_mean(reconstruction_losses + variational_losses)` over the batch.
Each batch sample is given by its reconstruction loss and its per-dimension
`(mean, sigma)` pairs. -/
def vae_loss (beta : ℝ) (samples : List (ℝ × List (ℝ × ℝ))) : ℝ :=
  ((samples.map (fun s => s.1 + variational_loss beta s.2)).sum) / samples.length

end

end TFModelLib.VAE

namespace TFModelLib

/-! ## Theorems -/

/-- C5: for every sequence, every pair of handlers and every extra
arguments, `maybe_chunked(values, None, f, g, ...)` applies the not-chunked
handler `g` once to the whole sequence and returns the pair
`(g(values, ...), False)`. -/
theorem maybe_chunked_none_spec (α β γ : Type) (values : List α)
    (on_chunked : OnChunked α β γ) (on_not_chunked : List α → γ → β) (extra : γ) :
    maybe_chunked values none on_chunked on_not_chunked extra =
      (ChunkResult.whole (on_not_chunked values extra), false) := rfl

/-- C1 (code bug): calling `add_summary` with a mode that is neither "epoch"
nor "step" does not log a warning and continue — it raises
`NameError: name 'which' is not defined`, because the warning message in
`add_summary` formats the unbound name `which` (tfmodel.py line 319).
`write_summary`, whose parameter really is named `which`, behaves as the
claim says: it appends the warning and changes nothing else.  Evaluation of
both at the failing mode "batch" on a fresh state. -/
theorem add_summary_invalid_mode_name_error :
    add_summary ({} : ModelState) "tag0" none "batch" = .error (.nameError "which") ∧
    write_summary ({} : ModelState) "batch" =
      ({ ({} : ModelState) with warnings := ["Invalid summary mode batch, ignoring."] }, none) := by
  constructor
  · rfl
  · rfl

/-- C10: when `summaries_root` is `None`, `init_summaries` leaves
`summary_fwriter = None`, and then `update_summary` returns without touching
any state and without logging a warning, whatever the key and value —
registered or not. -/
theorem update_summary_no_writer_noop (st : ModelState) (scope key : String) (val : ℚ) :
    update_summary (init_summaries st scope none) key val = init_summaries st scope none := rfl

/-- Effect of iterated `train_step` calls on the counters: `global_step` is
untouched and `batch_step` grows by the number of calls. -/
theorem iterate_train_step_counters (n : Nat) (s : CounterState) :
    (train_step_counters^[n] s).global_step = s.global_step ∧
    (train_step_counters^[n] s).batch_step = s.batch_step + n := by
  induction n generalizing s with
  | zero => simp
  | succ n ih =>
    rw [Function.iterate_succ_apply]
    have h := ih (train_step_counters s)
    have h2 : (train_step_counters s).global_step = s.global_step := rfl
    have h3 : (train_step_counters s).batch_step = s.batch_step + 1 := rfl
    omega

/-- C6 (counterexample): the counters are not monotonically non-decreasing
over the instance's life under every operation.  Concretely: train once
(epoch counter 1), checkpoint, train again (epoch counter 2), then
`restore` the checkpoint — the epoch counter drops back from 2 to 1, since
the saver's variable list contains the counter variables. -/
theorem restore_decrements_counters_cex :
    (restore_counters (train_counters 1 init_counters)
        (train_counters 1 (train_counters 1 init_counters))).global_step <
      (train_counters 1 (train_counters 1 init_counters)).global_step := by
  decide

/-- C6 (amended): every completed `train()` call increases the epoch counter
by exactly 1 — regardless of the number of mini-batches, which is added to
the batch counter — and every completed `train_step()` call increases the
batch counter by exactly 1 and leaves the epoch counter alone; no sequence
of `train`/`train_step` operations ever decreases either counter.  However
`restore()` overwrites both counters with the checkpointed values (they are
global variables in the saver's `var_list`), which can decrease them. -/
theorem counter_increment_spec :
    (∀ (nb : Nat) (s : CounterState),
        (train_counters nb s).global_step = s.global_step + 1 ∧
        (train_counters nb s).batch_step = s.batch_step + nb) ∧
    (∀ s : CounterState,
        (train_step_counters s).batch_step = s.batch_step + 1 ∧
        (train_step_counters s).global_step = s.global_step) ∧
    (∀ (ops : List TrainOp) (s : CounterState),
        s.global_step ≤ (apply_train_ops ops s).global_step ∧
        s.batch_step ≤ (apply_train_ops ops s).batch_step) ∧
    (∀ ckpt s : CounterState, restore_counters ckpt s = ckpt) := by
  refine ⟨?_, ?_, ?_, fun _ _ => rfl⟩
  · intro nb s
    obtain ⟨h1, h2⟩ := iterate_train_step_counters nb s
    simp only [train_counters]
    omega
  · intro s
    simp [train_step_counters]
  · intro ops
    induction ops with
    | nil => intro s; simp [apply_train_ops]
    | cons op t ih =>
      intro s
      have hstep : s.global_step ≤ (apply_train_ops [op] s).global_step ∧
          s.batch_step ≤ (apply_train_ops [op] s).batch_step := by
        cases op with
        | train nb =>
          obtain ⟨h1, h2⟩ := iterate_train_step_counters nb s
          simp only [apply_train_ops, List.foldl_cons, List.foldl_nil, train_counters]
          omega
        | trainStep => simp [apply_train_ops, train_step_counters]
      have htail := ih (apply_train_ops [op] s)
      have : apply_train_ops (op :: t) s = apply_train_ops t (apply_train_ops [op] s) := by
        simp [apply_train_ops]
      rw [this]
      omega

/-- Upper bound for `List.foldl max`. -/
theorem foldl_max_le (m : Nat) : ∀ (l : List Nat) (a : Nat),
    a ≤ m → (∀ x ∈ l, x ≤ m) → l.foldl max a ≤ m := by
  intro l
  induction l with
  | nil => intro a ha _; simpa using ha
  | cons b t ih =>
    intro a ha hl
    simp only [List.foldl_cons]
    exact ih (max a b) (max_le ha (hl b (by simp))) (fun x hx => hl x (by simp [hx]))

/-- The seed is a lower bound of `List.foldl max`. -/
theorem self_le_foldl_max : ∀ (l : List Nat) (a : Nat), a ≤ l.foldl max a := by
  intro l
  induction l with
  | nil => intro a; simp
  | cons b t ih =>
    intro a
    simp only [List.foldl_cons]
    exact le_trans (le_max_left a b) (ih (max a b))

/-- Every member is a lower bound of `List.foldl max`. -/
theorem mem_le_foldl_max : ∀ (l : List Nat) (a x : Nat), x ∈ l → x ≤ l.foldl max a := by
  intro l
  induction l with
  | nil => intro a x hx; cases hx
  | cons b t ih =>
    intro a x hx
    simp only [List.foldl_cons]
    rcases List.mem_cons.mp hx with h | h
    · subst h; exact le_trans (le_max_right a x) (self_le_foldl_max t _)
    · exact ih _ x h

/-- C2: run-index allocation.  A model instantiated while the run root does
not yet exist gets run index 0, and an instantiation that finds existing
numbered subdirectories (`m` being their maximum — gaps allowed) gets run
index `m + 1`; in both cases `init_saver` places the checkpoint directory of
the run at `<checkpoints_root>/<run index>`. -/
theorem run_index_allocation (st : ModelState) (scope root : String)
    (listing : List Nat) (m : Nat) (hmem : m ∈ listing) (hmax : ∀ x ∈ listing, x ≤ m) :
    init_saver (init_summaries st scope (some none)) (some root) = .ok (some (root, 0)) ∧
    init_saver (init_summaries st scope (some (some listing))) (some root) = .ok (some (root, m + 1)) := by
  have hfold : listing.foldl max 0 = m :=
    le_antisymm (foldl_max_le m listing 0 (Nat.zero_le m) hmax) (mem_le_foldl_max listing 0 m hmem)
  constructor
  · rfl
  · simp [init_saver, init_summaries, add_summary_ok, summaries_run_index, hfold]

/-- Witness for C2: a nonexistent root allocates index 0; an existing root
with entries 0, 2, 5 (gaps!) allocates index 6. -/
theorem run_index_allocation_witness :
    (5 ∈ ([0, 2, 5] : List Nat)) ∧ (∀ x ∈ ([0, 2, 5] : List Nat), x ≤ 5) ∧
    (init_saver (init_summaries ({} : ModelState) "tfmodel" (some none)) (some "ckpt")
        = .ok (some ("ckpt", 0)) ∧
      init_saver (init_summaries ({} : ModelState) "tfmodel" (some (some [0, 2, 5]))) (some "ckpt")
        = .ok (some ("ckpt", 6))) :=
  ⟨by decide, by decide,
    run_index_allocation ({} : ModelState) "tfmodel" "ckpt" [0, 2, 5] 5 (by decide) (by decide)⟩

/-- The behaviour of the chunking loop, for any sufficient fuel. -/
theorem chunklist_go_spec {α : Type} (len : Nat) (hlen : 0 < len) :
    ∀ (fuel : Nat) (values : List α), values.length ≤ fuel →
      (chunklist_go len fuel values).length = values.length / len ∧
      (∀ c ∈ chunklist_go len fuel values, c.length = len) ∧
      (chunklist_go len fuel values).flatten = values.take (values.length / len * len) := by
  intro fuel
  induction fuel with
  | zero =>
    intro values hv
    have hnil : values = [] := List.eq_nil_of_length_eq_zero (Nat.le_zero.mp hv)
    subst hnil
    simp [chunklist_go]
  | succ fuel ih =>
    intro values hv
    by_cases h : len ≤ values.length
    · rw [chunklist_go, if_pos ⟨hlen, h⟩]
      have hdrop : (values.drop len).length = values.length - len := List.length_drop len values
      obtain ⟨ih1, ih2, ih3⟩ := ih (values.drop len) (by omega)
      have hdiv : values.length / len = (values.length - len) / len + 1 := by
        have := Nat.add_div_right (values.length - len) hlen
        rw [Nat.sub_add_cancel h] at this
        omega
      refine ⟨?_, ?_, ?_⟩
      · simp only [List.length_cons, ih1, hdrop, hdiv]
      · intro c hc
        rcases List.mem_cons.mp hc with hc | hc
        · subst hc
          simp [List.length_take, Nat.min_eq_left h]
        · exact ih2 c hc
      · simp only [List.flatten_cons, ih3, hdrop]
        have : values.length / len * len = len + (values.length - len) / len * len := by
          rw [hdiv]; ring
        rw [this, List.take_add]
    · rw [chunklist_go, if_neg (by omega)]
      have hdiv : values.length / len = 0 := Nat.div_eq_of_lt (by omega)
      simp [hdiv]

/-- C4: for every sequence of length `n` and chunk length `k > 0`,
`chunklist(seq, k)` yields exactly `n / k` chunks, each of length exactly
`k`, in order, together making up the first `(n / k) * k` elements of the
sequence (the trailing `n mod k` elements are dropped). -/
theorem chunklist_spec (α : Type) (seq : List α) (k : Nat) (hk : 0 < k) :
    (chunklist seq k).length = seq.length / k ∧
    (∀ c ∈ chunklist seq k, c.length = k) ∧
    (chunklist seq k).flatten = seq.take (seq.length / k * k) :=
  chunklist_go_spec k hk seq.length seq (le_refl _)

/-- Witness for C4, at the spec's own example `chunklist(range(7), 3)`. -/
theorem chunklist_spec_witness :
    0 < 3 ∧
    ((chunklist (List.range 7) 3).length = (List.range 7).length / 3 ∧
      (∀ c ∈ chunklist (List.range 7) 3, c.length = 3) ∧
      (chunklist (List.range 7) 3).flatten = (List.range 7).take ((List.range 7).length / 3 * 3)) :=
  ⟨by decide, chunklist_spec Nat (List.range 7) 3 (by decide)⟩

/-- C9: with `batch_size` given and an input whose row count `n` satisfies
`0 < n < batch_size`, `chunklist` yields zero chunks, so `maybe_chunked`
returns an empty result list with `was_chunked = True`, and `infer`'s
`result[0]` raises `IndexError` instead of returning a result. -/
theorem infer_small_input_index_error (β γ : Type) (n bs : Nat)
    (f : List Nat → γ → β) (vstack : List β → β) (inputs : γ)
    (hn : 0 < n) (hbs : n < bs) :
    infer n (some bs) f vstack inputs = .error .indexError := by
  cases n with
  | zero => omega
  | succ m =>
    have hchunk : chunklist (List.range (m + 1)) bs = [] := by
      rw [chunklist, List.length_range, chunklist_go, if_neg]
      rw [List.length_range]
      omega
    simp [infer, maybe_chunked, hchunk]

/-- Witness for C9: one input row, batch size two. -/
theorem infer_small_input_index_error_witness :
    0 < 1 ∧ 1 < 2 ∧
    infer 1 (some 2) (fun _ _ => (0 : Nat)) (fun _ => (0 : Nat)) (0 : Nat) = .error .indexError :=
  ⟨by decide, by decide,
    infer_small_input_index_error Nat Nat 1 2 (fun _ _ => (0 : Nat)) (fun _ => (0 : Nat)) 0
      (by decide) (by decide)⟩

/-- On Python < 3.4 the decoding of a single value raises
`NotImplementedError` exactly on marker-shaped lists and is the identity
otherwise. -/
theorem decode_value_false (v : Val) :
    decode_value false v =
      if is_marker_list v then .error (.notImplementedError NIE_MSG) else .ok v := by
  rcases v with _ | b | n | s | xs | ⟨n, m⟩
  · rfl
  · rfl
  · rfl
  · rfl
  · rcases xs with _ | ⟨x, rest⟩
    · rfl
    · rcases x with _ | b | n | s | ys | ⟨n, m⟩
      · rfl
      · rfl
      · rfl
      · by_cases h : s == CALLABLE_TYPE
        · simp [decode_value, is_marker_list, h]
        · simp [decode_value, is_marker_list, h]
      · rfl
      · rfl
  · rfl

/-- Propagation through the decode loop: on Python < 3.4, a parsed config
containing at least one marker-shaped value makes `load`'s decoding loop
raise the `NotImplementedError`. -/
theorem load_decode_not_implemented (file : TFModelConfig)
    (h : ∃ kv ∈ file, is_marker_list kv.2 = true) :
    load_decode false file = .error (.notImplementedError NIE_MSG) := by
  induction file with
  | nil => simp at h
  | cons kv t ih =>
    by_cases hm : is_marker_list kv.2
    · simp only [load_decode, decode_value_false, hm, if_pos]
      rfl
    · have h' : ∃ kv ∈ t, is_marker_list kv.2 = true := by
        rcases h with ⟨kv0, hmem, hmark⟩
        rcases List.mem_cons.mp hmem with heq | hmem'
        · subst heq; exact absurd hmark hm
        · exact ⟨kv0, hmem', hmark⟩
      have ht := ih h'
      simp only [load_decode, decode_value_false, hm, if_neg, ht, if_false, Bool.false_eq_true]
      rfl

/-- C3 (counterexample): `TFModelConfig.load` on a file with a
callable-marker-encoded field, on a runtime older than Python 3.4, does
not propagate a not-implemented error to the caller.  The
`raise NotImplementedError` sits inside `load`'s own blanket
`try/except Exception`, which catches the error and prints it: at this
concrete input the call returns normally, with the config unmodified and
the error merely printed (second component). -/
theorem load_not_implemented_swallowed_cex :
    TFModelConfig.load [("batch_size", Val.jnum 32)]
        [("optimizer", Val.jlist [Val.jstr CALLABLE_TYPE, Val.jstr "AdamOptimizer", Val.jstr "tensorflow.python.training.adam"])]
        false
      = ([("batch_size", Val.jnum 32)], some (PyError.notImplementedError NIE_MSG)) := by
  rfl

/-- C3 (amended): on Python < 3.4, loading a config file containing a
callable-marker-encoded field raises `NotImplementedError` internally, but
`load`'s blanket exception handler catches and prints it; the call returns
normally and the config is left unmodified. -/
theorem load_not_implemented_swallowed (self file : TFModelConfig)
    (h : ∃ kv ∈ file, is_marker_list kv.2 = true) :
    TFModelConfig.load self file false = (self, some (.notImplementedError NIE_MSG)) := by
  rw [TFModelConfig.load, load_decode_not_implemented file h]

/-- Witness for C3 (amended): a file with one encoded callable field. -/
theorem load_not_implemented_swallowed_witness :
    (∃ kv ∈ ([("f", Val.jlist [Val.jstr CALLABLE_TYPE, Val.jstr "relu", Val.jstr "nn"])] : TFModelConfig),
        is_marker_list kv.2 = true) ∧
    TFModelConfig.load [] [("f", Val.jlist [Val.jstr CALLABLE_TYPE, Val.jstr "relu", Val.jstr "nn"])] false
      = ([], some (.notImplementedError NIE_MSG)) :=
  ⟨⟨("f", Val.jlist [Val.jstr CALLABLE_TYPE, Val.jstr "relu", Val.jstr "nn"]), by simp, by rfl⟩,
    load_not_implemented_swallowed []
      [("f", Val.jlist [Val.jstr CALLABLE_TYPE, Val.jstr "relu", Val.jstr "nn"])]
      ⟨("f", Val.jlist [Val.jstr CALLABLE_TYPE, Val.jstr "relu", Val.jstr "nn"]), by simp, by rfl⟩⟩


/-! Round-trip lemmas for the config encoding. -/

mutual

/-- Encoding is the identity on values containing no callable. -/
theorem encodeVal_of_no_callable : ∀ v : Val, no_callable v = true → encodeVal v = v
  | .jnull, _ => rfl
  | .jbool _, _ => rfl
  | .jnum _, _ => rfl
  | .jstr _, _ => rfl
  | .callable _ _, h => by simp [no_callable] at h
  | .jlist xs, h => by
    rw [encodeVal, encodeValList_of_no_callable xs (by simpa [no_callable] using h)]

/-- Encoding is the identity on lists of values containing no callable. -/
theorem encodeValList_of_no_callable : ∀ xs : List Val, no_callable_list xs = true → encodeValList xs = xs
  | [], _ => rfl
  | x :: xs, h => by
    have hx : no_callable x = true := by
      have := h
      simp [no_callable_list, Bool.and_eq_true] at this
      exact this.1
    have hxs : no_callable_list xs = true := by
      have := h
      simp [no_callable_list, Bool.and_eq_true] at this
      exact this.2
    rw [encodeValList, encodeVal_of_no_callable x hx, encodeValList_of_no_callable xs hxs]

end

/-- Decoding (on any runtime) is the identity on values that are not
marker-shaped. -/
theorem decode_value_not_marker (ver : Bool) (v : Val) (h : is_marker_list v = false) :
    decode_value ver v = .ok v := by
  rcases v with _ | b | n | s | xs | ⟨n, m⟩
  · rfl
  · rfl
  · rfl
  · rfl
  · rcases xs with _ | ⟨x, rest⟩
    · rfl
    · rcases x with _ | b | n | s | ys | ⟨n, m⟩
      · rfl
      · rfl
      · rfl
      · have hs : (s == CALLABLE_TYPE) = false := by simpa [is_marker_list] using h
        simp [decode_value, hs]
      · rfl
      · rfl
  · rfl

/-- Decoding undoes `encodeVal` on every value that `value_roundtrips`
admits (Python >= 3.4). -/
theorem decode_value_encodeVal (v : Val) (h : value_roundtrips v = true) :
    decode_value true (encodeVal v) = .ok v := by
  rcases v with _ | b | n | s | xs | ⟨n, m⟩
  · rfl
  · rfl
  · rfl
  · rfl
  · have h' : no_callable (Val.jlist xs) = true ∧ is_marker_list (Val.jlist xs) = false := by
      simpa [value_roundtrips, Bool.and_eq_true] using h
    rw [encodeVal_of_no_callable _ h'.1]
    exact decode_value_not_marker true _ h'.2
  · simp [encodeVal, encodeValList, decode_value, CALLABLE_TYPE]

/-- The decode loop of `load` undoes `save` on a config whose values all
round-trip. -/
theorem load_decode_save (c : TFModelConfig) (h : ∀ kv ∈ c, value_roundtrips kv.2 = true) :
    load_decode true (TFModelConfig.save c) = .ok c := by
  induction c with
  | nil => rfl
  | cons kv t ih =>
    have hkv : value_roundtrips kv.2 = true := h kv (by simp)
    have ht : load_decode true (TFModelConfig.save t) = .ok t :=
      ih (fun kv' hkv' => h kv' (by simp [hkv']))
    simp only [TFModelConfig.save, List.map_cons] at ht ⊢
    simp only [load_decode, decode_value_encodeVal kv.2 hkv, ht]
    rfl

/-- Looking up a key bound in `conf` after `dict.update(**conf)` finds the
`conf` binding. -/
theorem lookup_update_right (self conf : TFModelConfig) (k : String) (v : Val)
    (h : conf.lookup k = some v) :
    (TFModelConfig.update self conf).lookup k = some v := by
  induction self with
  | nil => simpa [TFModelConfig.update]
  | cons kv t ih =>
    by_cases hkeep : (conf.lookup kv.1).isNone
    · have hne : (k == kv.1) = false := by
        rcases hbeq : (k == kv.1) with _ | _
        · rfl
        · exfalso
          have : k = kv.1 := by simpa using hbeq
          rw [← this, h] at hkeep
          simp at hkeep
      simp only [TFModelConfig.update, List.filter_cons, hkeep, if_true]
      simp only [List.cons_append, List.lookup, hne]
      simpa [TFModelConfig.update] using ih
    · simp only [TFModelConfig.update, List.filter_cons, hkeep, if_false]
      simpa [TFModelConfig.update] using ih

/-- C7 (counterexample): the save/load round-trip does not reproduce every
non-callable field exactly.  The config field "activations" below holds a
list (not a callable) whose element is a callable: `json.dump` encodes the
nested callable to the marker triple, but `load` only decodes top-level
values, so the round-trip (on Python >= 3.4, into a fresh empty config)
yields a list containing the raw marker triple instead of the original
value. -/
theorem config_roundtrip_nested_callable_cex :
    (TFModelConfig.load []
        (TFModelConfig.save [("activations", Val.jlist [Val.callable "relu" "tensorflow.nn"])])
        true).1.lookup "activations"
      = some (Val.jlist [Val.jlist [Val.jstr CALLABLE_TYPE, Val.jstr "relu", Val.jstr "tensorflow.nn"]]) ∧
    Val.jlist [Val.jlist [Val.jstr CALLABLE_TYPE, Val.jstr "relu", Val.jstr "tensorflow.nn"]]
      ≠ Val.jlist [Val.callable "relu" "tensorflow.nn"] := by
  constructor
  · rfl
  · intro hEq
    have := Val.jlist.inj hEq
    simp at this

/-- C7 (amended): `save` followed by `load` into a fresh config (on Python
>= 3.4) reproduces exactly every field whose value round-trips: every
non-callable field whose value contains no callable and is not itself a
marker-shaped list keeps its exact value, and every callable-valued field
resolves to the callable with the same name in the same module.  (Fields
with callables nested inside containers, or values spoofing the marker
string, are not restored faithfully; see the counterexample.)  The load
call completes without a swallowed error. -/
theorem config_roundtrip_spec (c fresh : TFModelConfig) (k : String) (v : Val)
    (hvals : ∀ kv ∈ c, value_roundtrips kv.2 = true) (hk : c.lookup k = some v) :
    (TFModelConfig.load fresh (TFModelConfig.save c) true).1.lookup k = some v ∧
    (TFModelConfig.load fresh (TFModelConfig.save c) true).2 = none := by
  rw [TFModelConfig.load, load_decode_save c hvals]
  exact ⟨lookup_update_right fresh c k v hk, rfl⟩

/-- Witness for C7 (amended): a config with a plain numeric field and a
callable-valued field; the numeric field keeps its value across the
round-trip. -/
theorem config_roundtrip_spec_witness :
    (∀ kv ∈ ([("batch_size", Val.jnum 32), ("hidden_activation", Val.callable "relu" "tensorflow.nn")] : TFModelConfig),
        value_roundtrips kv.2 = true) ∧
    ([("batch_size", Val.jnum 32), ("hidden_activation", Val.callable "relu" "tensorflow.nn")] : TFModelConfig).lookup "batch_size" = some (Val.jnum 32) ∧
    ((TFModelConfig.load []
        (TFModelConfig.save [("batch_size", Val.jnum 32), ("hidden_activation", Val.callable "relu" "tensorflow.nn")])
        true).1.lookup "batch_size" = some (Val.jnum 32) ∧
      (TFModelConfig.load []
        (TFModelConfig.save [("batch_size", Val.jnum 32), ("hidden_activation", Val.callable "relu" "tensorflow.nn")])
        true).2 = none) :=
  by
  have hvals : ∀ kv ∈ ([("batch_size", Val.jnum 32), ("hidden_activation", Val.callable "relu" "tensorflow.nn")] : TFModelConfig),
      value_roundtrips kv.2 = true := by
    intro kv hkv
    rcases List.mem_cons.mp hkv with h | h
    · subst h; rfl
    · rcases List.mem_cons.mp h with h' | h'
      · subst h'; rfl
      · cases h'
  refine ⟨hvals, rfl, ?_⟩
  exact config_roundtrip_spec
    [("batch_size", Val.jnum 32), ("hidden_activation", Val.callable "relu" "tensorflow.nn")]
    [] "batch_size" (Val.jnum 32) hvals rfl


end TFModelLib

namespace TFModelLib.VAE

/-- The epsilon-guarded logarithm at `sigma = 0` is `log 1e-45`. -/
theorem latent_log_sigma_sq_zero : latent_log_sigma_sq (0 : ℝ) = Real.log 1e-45 := by
  rw [latent_log_sigma_sq, latent_sigma_sq]
  norm_num

/-- Evaluation of `sigma²` at `sigma = 0`. -/
theorem latent_sigma_sq_zero : latent_sigma_sq (0 : ℝ) = 0 := by
  rw [latent_sigma_sq]
  norm_num

/-- The logarithm of the epsilon guard is well below `-1`. -/
theorem log_eps_lt_neg_one : Real.log (1e-45 : ℝ) < -1 := by
  have hpos : (0 : ℝ) < 1e-45 := by norm_num
  have h1 : Real.exp 1 < 1e45 := lt_trans Real.exp_one_lt_d9 (by norm_num)
  have h2 : (1e-45 : ℝ) < Real.exp (-1) := by
    rw [Real.exp_neg]
    calc (1e-45 : ℝ) = (1e45 : ℝ)⁻¹ := by norm_num
    _ < (Real.exp 1)⁻¹ := inv_strictAnti₀ (Real.exp_pos 1) h1
  exact (Real.log_lt_iff_lt_exp hpos).mpr h2

/-- C8 (counterexample): the claimed reduction of the KL term at `sigma = 0`
fails.  For a single sample with one latent dimension, `mean = 0`,
`sigma = 0` and `beta = 1`, the per-sample KL term is
`0.5 * (-1 - log 1e-45) ≈ 51.3`, not `0.5 * beta * sum(mean²) = 0`: the
`-1 - log sigma²` summands do not vanish at `sigma = 0`. -/
theorem vae_kl_sigma_zero_cex :
    variational_loss 1 [((0 : ℝ), (0 : ℝ))] ≠
      0.5 * 1 * (([(0 : ℝ)]).map (fun m => m ^ 2)).sum := by
  intro hEq
  simp only [variational_loss, List.map_cons, List.map_nil, List.sum_cons, List.sum_nil,
    latent_log_sigma_sq_zero, latent_sigma_sq_zero] at hEq
  norm_num at hEq
  have := log_eps_lt_neg_one
  norm_num at this
  linarith

/-- C8 (amended): the VAE loss is the batch mean of (per-sample
reconstruction loss + per-sample KL term
`0.5 * beta * sum(-1 - log(sigma² + 1e-45) + mean² + sigma²)`), by
construction of `vae_loss`.  For a batch where the latent scale is 0
everywhere, the per-sample KL term equals
`0.5 * beta * (sum(mean²) + d * (-1 - log 1e-45))` over the `d` latent
dimensions — a finite value: the epsilon guard keeps the argument of the
logarithm strictly positive at `sigma = 0` (no NaN/Inf), but the
`-1 - log sigma²` summands contribute the nonzero constant
`-1 - log 1e-45` per dimension rather than vanishing. -/
theorem vae_kl_sigma_zero_spec :
    ∀ (beta : ℝ) (means : List ℝ),
      variational_loss beta (means.map (fun m => (m, (0 : ℝ)))) =
        0.5 * beta * ((means.map (fun m => m ^ 2)).sum + means.length * (-1 - Real.log 1e-45)) ∧
      ∀ sigma : ℝ, 0 < latent_sigma_sq sigma + 1e-45 := by
  intro beta means
  constructor
  · rw [variational_loss]
    have h : ∀ l : List ℝ,
        ((l.map (fun m => (m, (0 : ℝ)))).map
            (fun p => -1 - latent_log_sigma_sq p.2 + p.1 ^ 2 + latent_sigma_sq p.2)).sum
          = (l.map (fun m => m ^ 2)).sum + l.length * (-1 - Real.log 1e-45) := by
      intro l
      induction l with
      | nil => simp
      | cons a t ih =>
        simp only [List.map_cons, List.sum_cons, ih, latent_log_sigma_sq_zero,
          latent_sigma_sq_zero, List.length_cons]
        push_cast
        ring
    rw [h means]
  · intro sigma
    rw [latent_sigma_sq]
    positivity

end TFModelLib.VAE
